import Mathlib

/-!
Shallow embedding of the unicharm staging-and-loading core
(`src/unicharm-operations_v7/components/LoadingSheet.tsx`,
`src/unnamed/part_003` = `StagingSheet.tsx`,
`src/unicharm-operations_v7/AppContext.tsx`), together with proofs about
its quantity calculator, staging validator, loading-matrix generator,
cell reconciliation engine, sheet lifecycle and lock manager.

Numbers are modelled as `Int` (JS numbers here are integers produced by
`parseInt`/`Number`); a blank text input (`''`) is modelled as `none` of
`Option Int`, mirroring the `v === '' ? 0 : parseInt(v)` coercions.
-/

namespace Unicharm

/-- `SheetStatus` from `types.ts`: the sheet lifecycle states. -/
inductive SheetStatus where
  | DRAFT
  | LOCKED
  | COMPLETED
deriving DecidableEq, Repr

/-- `StagingItem` from `types.ts`: one SKU row staged for shipment. -/
structure StagingItem where
  srNo : Nat
  skuName : String
  casesPerPlt : Int
  fullPlt : Int
  loose : Int
  ttlCases : Int
deriving DecidableEq, Repr

/-- `LoadingCell` from `types.ts`: one `(row, col, value)` cell of the loading matrix. -/
structure LoadingCell where
  row : Nat
  col : Nat
  value : Int
deriving DecidableEq, Repr

/-- `LoadingItemData` from `types.ts`: per-SKU loading progress. -/
structure LoadingItemData where
  skuSrNo : Nat
  cells : List LoadingCell
  looseInput : Int
  total : Int
  balance : Int
deriving DecidableEq, Repr

/-- `AdditionalItem` from `types.ts`: an ad-hoc SKU loaded outside the staged plan. -/
structure AdditionalItem where
  id : Nat
  skuName : String
  counts : List Int
  total : Int
deriving DecidableEq, Repr

/-- `newCells.reduce((acc, c) => acc + c.value, 0)` in `LoadingSheet.tsx`. -/
def cellSum (cells : List LoadingCell) : Int :=
  cells.foldl (fun acc c => acc + c.value) 0

/-- `sheet.stagingItems.find(s => s.srNo === skuSrNo)` in `LoadingSheet.tsx`. -/
def findStaging (staging : List StagingItem) (skuSrNo : Nat) : Option StagingItem :=
  staging.find? fun s => s.srNo == skuSrNo

/-- `stagingItem?.ttlCases || 0` in `LoadingSheet.tsx` (for an integer `t`,
`t || 0` is `t` unless `t = 0`, in which case it is also `0`). -/
def ttlCasesOf (staging : List StagingItem) (skuSrNo : Nat) : Int :=
  match findStaging staging skuSrNo with
  | some s => s.ttlCases
  | none => 0

/-- `generateLoadingItems` in `LoadingSheet.tsx` (lines 139-170), restricted to
the `loadingItems` it produces: keep the staging rows with a truthy (non-empty)
`skuName` and `ttlCases > 0`, and build a fresh `LoadingItemData` for each. -/
def generateLoadingItems (staging : List StagingItem) : List LoadingItemData :=
  (staging.filter fun item => !(item.skuName == "") && decide (0 < item.ttlCases)).map
    fun item =>
      { skuSrNo := item.srNo, cells := [], looseInput := 0, total := 0, balance := item.ttlCases }

/-- `Array.from({length: 5}, (_, i) => ({id: i+1, skuName: '', counts: Array(10).fill(0),
total: 0}))`: the fixed additional-items pool built by `generateLoadingItems` and
`handleSave`. -/
def initAdditionalItems : List AdditionalItem :=
  (List.range 5).map fun i =>
    { id := i + 1, skuName := "", counts := List.replicate 10 0, total := 0 }

/-- The `(row, col)` cell upsert inside `handleLoadingCellChange`
(`LoadingSheet.tsx` lines 184-187): `findIndex` the cell among `li.cells`;
replace it in place when present, else push a new cell. -/
def upsertCell (cells : List LoadingCell) (row col : Nat) (value : Int) : List LoadingCell :=
  match cells.findIdx? (fun c => c.row == row && c.col == col) with
  | some i => cells.set i { row := row, col := col, value := value }
  | none => cells ++ [{ row := row, col := col, value := value }]

/-- The `safeLoadingItems` fallback in `handleLoadingCellChange` and
`handleLooseChange`: the current `loadingItems` when non-empty, else the
freshly generated matrix. -/
def safeLoadingItems (staging : List StagingItem) (items : List LoadingItemData) :
    List LoadingItemData :=
  if items.isEmpty then generateLoadingItems staging else items

/-- `handleLoadingCellChange` in `LoadingSheet.tsx` (lines 172-195). A blank
input (`val = none`) is coerced to `0`; a non-numeric input returns early in the
source (`isNaN` guard) and is not modelled, being a no-op on the state. -/
def handleLoadingCellChange (staging : List StagingItem) (items : List LoadingItemData)
    (skuSrNo row col : Nat) (val : Option Int) : List LoadingItemData :=
  let value := val.getD 0
  (safeLoadingItems staging items).map fun li =>
    if li.skuSrNo == skuSrNo then
      let newCells := upsertCell li.cells row col value
      let total := cellSum newCells + li.looseInput
      let balance := ttlCasesOf staging skuSrNo - total
      { li with cells := newCells, total := total, balance := balance }
    else li

/-- `handleLooseChange` in `LoadingSheet.tsx` (lines 210-228). -/
def handleLooseChange (staging : List StagingItem) (items : List LoadingItemData)
    (skuSrNo : Nat) (val : Option Int) : List LoadingItemData :=
  let value := val.getD 0
  (safeLoadingItems staging items).map fun li =>
    if li.skuSrNo == skuSrNo then
      let total := cellSum li.cells + value
      let balance := ttlCasesOf staging skuSrNo - total
      { li with looseInput := value, total := total, balance := balance }
    else li

/-- `handleCellBlur` in `LoadingSheet.tsx` (lines 197-208): on a non-blank
committed value, if the owning staging row has `casesPerPlt > 0` and the value
differs from it, the edit is rejected by re-running the cell change with a
blank value. -/
def handleCellBlur (staging : List StagingItem) (items : List LoadingItemData)
    (skuSrNo row col : Nat) (val : Option Int) : List LoadingItemData :=
  match val with
  | none => items
  | some intVal =>
    match findStaging staging skuSrNo with
    | some sItem =>
      if 0 < sItem.casesPerPlt ∧ intVal ≠ sItem.casesPerPlt then
        handleLoadingCellChange staging items skuSrNo row col none
      else items
    | none => items

/-- Committing a grid-cell edit: the keystroke (`onChange`, which already wrote
the value) followed by the `onBlur` validation on the same raw value. -/
def commitCell (staging : List StagingItem) (items : List LoadingItemData)
    (skuSrNo row col : Nat) (val : Option Int) : List LoadingItemData :=
  handleCellBlur staging (handleLoadingCellChange staging items skuSrNo row col val)
    skuSrNo row col val

/-- The value a grid cell displays. The source renders `cell?.value || ''`, so a
missing entry and a `0`-valued entry both display blank: we return the displayed
number, `0` meaning blank. -/
def cellDisplay (items : List LoadingItemData) (skuSrNo row col : Nat) : Int :=
  match items.find? (fun li => li.skuSrNo == skuSrNo) with
  | none => 0
  | some li =>
    match li.cells.find? (fun c => c.row == row && c.col == col) with
    | none => 0
    | some c => c.value

/-- One loading-matrix edit event as dispatched by the `LoadingSheet` UI. -/
inductive LoadEdit where
  | cell (skuSrNo row col : Nat) (val : Option Int)
  | blur (skuSrNo row col : Nat) (val : Option Int)
  | loose (skuSrNo : Nat) (val : Option Int)
deriving DecidableEq, Repr

/-- Apply one edit event to the `loadingItems` state. -/
def applyEdit (staging : List StagingItem) (items : List LoadingItemData) :
    LoadEdit → List LoadingItemData
  | .cell sr r c v => handleLoadingCellChange staging items sr r c v
  | .blur sr r c v => handleCellBlur staging items sr r c v
  | .loose sr v => handleLooseChange staging items sr v

/-- Apply a sequence of edit events, left to right. -/
def applyEdits (staging : List StagingItem) (items : List LoadingItemData)
    (es : List LoadEdit) : List LoadingItemData :=
  es.foldl (applyEdit staging) items

/-- A staging form row as held in the `items` React state of `StagingSheet`
(`part_003`): the three numeric factors may be blank (`''`), modelled as
`none`; `ttlCases` is the derived total kept alongside them. -/
structure RawItem where
  srNo : Nat
  skuName : String
  casesPerPlt : Option Int
  fullPlt : Option Int
  loose : Option Int
  ttlCases : Int
deriving DecidableEq, Repr

/-- The quantity calculator: `(cases === '' ? 0 : cases) * (full === '' ? 0 : full)
+ (loose === '' ? 0 : loose)`, as computed in `handleItemChange` and in
`handleSave`'s `finalItems` (`part_003`). -/
def computeTotalCases (casesPerPlt fullPlt loose : Option Int) : Int :=
  casesPerPlt.getD 0 * fullPlt.getD 0 + loose.getD 0

/-- `item.ttlCases = (Number(cases) * Number(full)) + Number(loose)` performed at
the end of `handleItemChange`. -/
def recomputeTtl (item : RawItem) : RawItem :=
  { item with ttlCases := computeTotalCases item.casesPerPlt item.fullPlt item.loose }

/-- One editable field of a staging row, with the value typed into it. -/
inductive ItemField where
  | skuName (v : String)
  | casesPerPlt (v : Option Int)
  | fullPlt (v : Option Int)
  | loose (v : Option Int)
deriving DecidableEq, Repr

/-- `handleItemChange` in `part_003` (lines 79-94), for the row being edited:
write the typed value into the named field, then recompute `ttlCases` from the
three factors with blanks coerced to `0`. -/
def handleItemChange (item : RawItem) : ItemField → RawItem
  | .skuName v => recomputeTtl { item with skuName := v }
  | .casesPerPlt v => recomputeTtl { item with casesPerPlt := v }
  | .fullPlt v => recomputeTtl { item with fullPlt := v }
  | .loose v => recomputeTtl { item with loose := v }

/-- The `finalItems` coercion in `handleSave` (`part_003` lines 134-139): blanks
to `0` and `ttlCases = c * f + l`. -/
def finalizeRaw (item : RawItem) : StagingItem :=
  let c := item.casesPerPlt.getD 0
  let f := item.fullPlt.getD 0
  let l := item.loose.getD 0
  { srNo := item.srNo, skuName := item.skuName, casesPerPlt := c, fullPlt := f,
    loose := l, ttlCases := c * f + l }

/-- JS `String.prototype.trim()` as used by `validateForm`: strip leading and
trailing whitespace. Modelled by structural recursion over the character list
so that concrete sheets evaluate inside proofs. -/
def strTrim (s : String) : String :=
  { data := ((s.data.dropWhile Char.isWhitespace).reverse.dropWhile Char.isWhitespace).reverse }

/-- `validateForm` in `part_003` (lines 104-122). The three pushes are modelled
by appends in source order; note the third rule is guarded by
`errors.length === 0` in the source. -/
def validateForm (destination loadingDockNo : String) (itemsToValidate : List RawItem)
    (strict : Bool) : List String :=
  let errors : List String := []
  let errors := if strict && strTrim destination == "" then
    errors ++ ["Destination is required"] else errors
  let errors := if strict && strTrim loadingDockNo == "" then
    errors ++ ["Loading Dock No is required"] else errors
  let hasAtLeastOneItem := itemsToValidate.any fun item => !(strTrim item.skuName == "")
  if strict && !hasAtLeastOneItem && errors.isEmpty then
    errors ++ ["At least one valid item row (SKU Name) is required to lock."]
  else errors

/-- The lock-time loading-matrix generation in `handleSave` (`part_003` lines
155-164): for each valid staging row, preserve an already existing
`LoadingItemData` (recomputing only `balance`), else build a fresh one. -/
def regenLoadingItems (finalItems : List StagingItem) (existing : List LoadingItemData) :
    List LoadingItemData :=
  let validStagingItems := finalItems.filter fun item =>
    !(item.skuName == "") && decide (0 < item.ttlCases)
  validStagingItems.map fun sItem =>
    match existing.find? (fun li => li.skuSrNo == sItem.srNo) with
    | some e => { e with balance := sItem.ttlCases - e.total }
    | none => { skuSrNo := sItem.srNo, cells := [], looseInput := 0, total := 0,
                balance := sItem.ttlCases }

/-- The defensive regeneration `useEffect` in `LoadingSheet.tsx` (lines 115-123):
when some staging row has `ttlCases > 0` and either the loading items or the
additional items are missing, `generateLoadingItems()` rebuilds `loadingItems`
from scratch; we return the resulting `loadingItems`. -/
def defensiveRegen (staging : List StagingItem) (loadingItems : List LoadingItemData)
    (additionalItems : List AdditionalItem) : List LoadingItemData :=
  let hasStagingData := staging.any fun i => decide (0 < i.ttlCases)
  let hasLoadingData := !loadingItems.isEmpty
  let hasAdditionalData := !additionalItems.isEmpty
  if hasStagingData && (!hasLoadingData || !hasAdditionalData) then
    generateLoadingItems staging
  else loadingItems

/-- `acquireLock` in `AppContext.tsx` (lines 298-304): refuse when the id is
already an active lock, else insert it; returns the outcome and the new lock set. -/
def acquireLock (locks : List String) (sheetId : String) : Bool × List String :=
  if sheetId ∈ locks then (false, locks) else (true, sheetId :: locks)

/-- `releaseLock` in `AppContext.tsx` (lines 306-311): remove the id unconditionally. -/
def releaseLock (locks : List String) (sheetId : String) : List String :=
  locks.filter fun x => !(x == sheetId)

/-- The lifecycle-relevant slice of `SheetData`. -/
structure Sheet where
  id : String
  status : SheetStatus
  destination : String
  loadingDockNo : String
  stagingItems : List StagingItem
  loadingItems : List LoadingItemData
  additionalItems : List AdditionalItem
deriving DecidableEq, Repr

/-- The shared container state (`AppContext`): the sheet collection and the
active-lock set. -/
structure AppState where
  sheets : List Sheet
  activeLocks : List String
deriving DecidableEq, Repr

/-- The typed failures `handleSave` surfaces to the caller. -/
inductive SaveError where
  | validation (errors : List String)
  | conflict
deriving DecidableEq, Repr

/-- `updateSheet` in `AppContext.tsx` (lines 247-268), restricted to the sheet
collection: replace the sheet with the matching id (history stamping omitted —
it only annotates the stored document). -/
def updateSheetList (sheets : List Sheet) (sheet : Sheet) : List Sheet :=
  sheets.map fun s => if s.id == sheet.id then sheet else s

/-- `handleSave` in `part_003` (lines 124-224), modelled on the
lifecycle-relevant state: strict validation, lock acquisition, loading-matrix
generation, and persistence through `addSheet`/`updateSheet`. UI concerns
(alerts, navigation, timestamps, signatures) are omitted. -/
def handleSave (st : AppState) (existing : Option Sheet) (destination loadingDockNo : String)
    (items : List RawItem) (lock : Bool) (newId : String) : AppState × Except SaveError Sheet :=
  let errors := validateForm destination loadingDockNo items lock
  if !errors.isEmpty then (st, .error (.validation errors))
  else
    let finalItems := items.map finalizeRaw
    let sheetId := match existing with | some s => s.id | none => newId
    let acq := if lock then acquireLock st.activeLocks sheetId else (true, st.activeLocks)
    if !acq.1 then (st, .error .conflict)
    else
      let existingLoading := match existing with | some s => s.loadingItems | none => []
      let existingAdditional := match existing with | some s => s.additionalItems | none => []
      let finalLoadingItems := if lock then regenLoadingItems finalItems existingLoading
        else existingLoading
      let finalAdditionalItems := if lock && existingAdditional.isEmpty then initAdditionalItems
        else existingAdditional
      let sheetData : Sheet :=
        { id := sheetId, status := if lock then .LOCKED else .DRAFT,
          destination := destination, loadingDockNo := loadingDockNo,
          stagingItems := finalItems, loadingItems := finalLoadingItems,
          additionalItems := finalAdditionalItems }
      let sheets1 := match existing with
        | some _ => updateSheetList st.sheets sheetData
        | none => st.sheets ++ [sheetData]
      let locks2 := if lock then releaseLock acq.2 sheetId else acq.2
      ({ sheets := sheets1, activeLocks := locks2 }, .ok sheetData)

/-- The status-mutating operations the UI exposes on a sheet. -/
inductive SheetOp where
  | saveDraft
  | lockSheet
  | saveProgress
  | completeSheet
deriving DecidableEq, Repr

/-- The guard under which each operation is offered by the UI: the
`StagingSheet` footer buttons (Save Draft, Lock & Submit) render only when
`!isLocked` (status neither LOCKED nor COMPLETED); the `LoadingSheet` buttons
(Save Progress, Complete Loading / `handleSubmit`) render only when
`!isCompleted` (status not COMPLETED) — `handleSubmit` itself checks nothing. -/
def opGuard : SheetOp → SheetStatus → Bool
  | .saveDraft, s => !(s == .LOCKED || s == .COMPLETED)
  | .lockSheet, s => !(s == .LOCKED || s == .COMPLETED)
  | .saveProgress, s => !(s == .COMPLETED)
  | .completeSheet, s => !(s == .COMPLETED)

/-- The status each operation writes: `handleSave` stores `lock ? LOCKED :
DRAFT`; `handleSaveProgress` stores `buildSheetData(currentSheet.status)`;
`handleSubmit` stores `buildSheetData(SheetStatus.COMPLETED)`. -/
def opStatus : SheetOp → SheetStatus → SheetStatus
  | .saveDraft, _ => .DRAFT
  | .lockSheet, _ => .LOCKED
  | .saveProgress, s => s
  | .completeSheet, _ => .COMPLETED

/-- Position of a status in the DRAFT → LOCKED → COMPLETED order. -/
def statusRank : SheetStatus → Nat
  | .DRAFT => 0
  | .LOCKED => 1
  | .COMPLETED => 2

/-- Run a sequence of guarded operations over the status: an operation whose
guard fails leaves the status unchanged (its button is not rendered). -/
def runOps (s : SheetStatus) (ops : List SheetOp) : SheetStatus :=
  ops.foldl (fun st op => if opGuard op st then opStatus op st else st) s

/-- Balance conservation: every loading row's `total + balance` equals the
owning staging row's `ttlCases` (`0` when no staging row matches). -/
def BalanceInv (staging : List StagingItem) (items : List LoadingItemData) : Prop :=
  ∀ li ∈ items, li.total + li.balance = ttlCasesOf staging li.skuSrNo

/-- The `(row, col)` keys of a cell list. -/
def cellKeys (cells : List LoadingCell) : List (Nat × Nat) :=
  cells.map fun c => (c.row, c.col)

/-- Cell-key uniqueness: every loading row holds at most one cell per
`(row, col)` pair. -/
def UniqueCellKeys (items : List LoadingItemData) : Prop :=
  ∀ li ∈ items, (cellKeys li.cells).Nodup

/-! ### Basic lemmas about the cell upsert -/

theorem upsertCell_nil (r c : Nat) (v : Int) :
    upsertCell [] r c v = [{ row := r, col := c, value := v }] := rfl

theorem upsertCell_cons (cl : LoadingCell) (cs : List LoadingCell) (r c : Nat) (v : Int) :
    upsertCell (cl :: cs) r c v =
      if cl.row == r && cl.col == c then { row := r, col := c, value := v } :: cs
      else cl :: upsertCell cs r c v := by
  unfold upsertCell
  by_cases h : (cl.row == r && cl.col == c) = true
  · simp [List.findIdx?_cons, h]
  · simp only [List.findIdx?_cons, h, Bool.false_eq_true, if_false, List.findIdx?_succ]
    cases hfind : cs.findIdx? (fun x => x.row == r && x.col == c) with
    | none => simp
    | some i => simp

theorem upsertCell_find (cells : List LoadingCell) (r c : Nat) (v : Int) :
    (upsertCell cells r c v).find? (fun cl => cl.row == r && cl.col == c) =
      some { row := r, col := c, value := v } := by
  induction cells with
  | nil => simp [upsertCell_nil]
  | cons cl cs ih =>
    rw [upsertCell_cons]
    by_cases h : (cl.row == r && cl.col == c) = true
    · simp [h]
    · rw [if_neg (by simp [h]), List.find?_cons_of_neg _ (by simp [h]), ih]

theorem cellKeys_upsert_of_mem (cells : List LoadingCell) (r c : Nat) (v : Int)
    (h : (r, c) ∈ cellKeys cells) :
    cellKeys (upsertCell cells r c v) = cellKeys cells := by
  induction cells with
  | nil => simp [cellKeys] at h
  | cons cl cs ih =>
    rw [upsertCell_cons]
    by_cases hp : (cl.row == r && cl.col == c) = true
    · rw [if_pos hp]
      obtain ⟨h1, h2⟩ : cl.row = r ∧ cl.col = c := by simpa using hp
      simp [cellKeys, h1, h2]
    · rw [if_neg hp]
      have hkey : (cl.row, cl.col) ≠ (r, c) := by
        intro he
        simp only [Prod.mk.injEq] at he
        exact hp (by simp [he.1, he.2])
      have hmem : (r, c) ∈ cellKeys cs := by
        simp only [cellKeys, List.map_cons, List.mem_cons] at h
        exact h.resolve_left fun he => hkey he.symm
      show (cl.row, cl.col) :: cellKeys (upsertCell cs r c v) = cellKeys (cl :: cs)
      rw [ih hmem]
      rfl

theorem cellKeys_upsert_of_not_mem (cells : List LoadingCell) (r c : Nat) (v : Int)
    (h : (r, c) ∉ cellKeys cells) :
    cellKeys (upsertCell cells r c v) = cellKeys cells ++ [(r, c)] := by
  induction cells with
  | nil => simp [upsertCell_nil, cellKeys]
  | cons cl cs ih =>
    rw [upsertCell_cons]
    by_cases hp : (cl.row == r && cl.col == c) = true
    · exfalso
      apply h
      simp only [Bool.and_eq_true, beq_iff_eq] at hp
      simp [cellKeys, hp.1, hp.2]
    · rw [if_neg hp]
      have hmem : (r, c) ∉ cellKeys cs := by
        intro hc
        exact h (by simp only [cellKeys, List.map_cons, List.mem_cons]; exact Or.inr hc)
      show (cl.row, cl.col) :: cellKeys (upsertCell cs r c v) = cellKeys (cl :: cs) ++ [(r, c)]
      rw [ih hmem]
      rfl

theorem cellKeys_length (cells : List LoadingCell) :
    (cellKeys cells).length = cells.length := by
  simp [cellKeys]

theorem upsertCell_nodup (cells : List LoadingCell) (r c : Nat) (v : Int)
    (h : (cellKeys cells).Nodup) : (cellKeys (upsertCell cells r c v)).Nodup := by
  by_cases hm : (r, c) ∈ cellKeys cells
  · rw [cellKeys_upsert_of_mem _ _ _ _ hm]; exact h
  · rw [cellKeys_upsert_of_not_mem _ _ _ _ hm]
    simp [List.nodup_append, h, hm]

theorem upsertCell_keys_subset (cells : List LoadingCell) (r c : Nat) (v : Int) :
    ∀ k ∈ cellKeys cells, k ∈ cellKeys (upsertCell cells r c v) := by
  intro k hk
  by_cases hm : (r, c) ∈ cellKeys cells
  · rw [cellKeys_upsert_of_mem _ _ _ _ hm]; exact hk
  · rw [cellKeys_upsert_of_not_mem _ _ _ _ hm]; exact List.mem_append_left _ hk

theorem upsertCell_length_of_mem (cells : List LoadingCell) (r c : Nat) (v : Int)
    (h : (r, c) ∈ cellKeys cells) : (upsertCell cells r c v).length = cells.length := by
  have h3 := congrArg List.length (cellKeys_upsert_of_mem cells r c v h)
  rw [cellKeys_length, cellKeys_length] at h3
  exact h3

/-! ### Lemmas about staging lookup and the edited item list -/

theorem findStaging_nodup (staging : List StagingItem) (s : StagingItem)
    (hnd : (staging.map StagingItem.srNo).Nodup) (hs : s ∈ staging) :
    findStaging staging s.srNo = some s := by
  induction staging with
  | nil => simp at hs
  | cons a l ih =>
    simp only [List.map_cons, List.nodup_cons] at hnd
    rcases List.mem_cons.mp hs with rfl | hmem
    · simp [findStaging]
    · have hne : (a.srNo == s.srNo) = false := by
        rw [beq_eq_false_iff_ne]
        intro he
        exact hnd.1 (he ▸ List.mem_map_of_mem StagingItem.srNo hmem)
      unfold findStaging at ih ⊢
      rw [List.find?_cons]
      simp only [hne]
      exact ih hnd.2 hmem

theorem handleLoadingCellChange_eq (staging : List StagingItem) (items : List LoadingItemData)
    (sr r c : Nat) (val : Option Int) :
    handleLoadingCellChange staging items sr r c val =
      (safeLoadingItems staging items).map fun li =>
        if li.skuSrNo == sr then
          { li with
            cells := upsertCell li.cells r c (val.getD 0),
            total := cellSum (upsertCell li.cells r c (val.getD 0)) + li.looseInput,
            balance := ttlCasesOf staging sr -
              (cellSum (upsertCell li.cells r c (val.getD 0)) + li.looseInput) }
        else li := rfl

theorem handleLooseChange_eq (staging : List StagingItem) (items : List LoadingItemData)
    (sr : Nat) (val : Option Int) :
    handleLooseChange staging items sr val =
      (safeLoadingItems staging items).map fun li =>
        if li.skuSrNo == sr then
          { li with
            looseInput := val.getD 0,
            total := cellSum li.cells + val.getD 0,
            balance := ttlCasesOf staging sr - (cellSum li.cells + val.getD 0) }
        else li := rfl

theorem find?_map_ite (items : List LoadingItemData) (sr : Nat)
    (g : LoadingItemData → LoadingItemData) (hg : ∀ li, (g li).skuSrNo = li.skuSrNo) :
    (items.map fun li => if li.skuSrNo == sr then g li else li).find?
        (fun li => li.skuSrNo == sr) =
      (items.find? fun li => li.skuSrNo == sr).map g := by
  induction items with
  | nil => rfl
  | cons li rest ih =>
    simp only [List.map_cons]
    by_cases h : (li.skuSrNo == sr) = true
    · rw [if_pos h, List.find?_cons, List.find?_cons]
      simp only [hg, h, Option.map_some']
    · have h' : (li.skuSrNo == sr) = false := by
        cases hb : (li.skuSrNo == sr) with
        | true => exact absurd hb h
        | false => rfl
      rw [if_neg h, List.find?_cons, List.find?_cons]
      simp only [h']
      exact ih

/-! ### Reduction equations for the blur validation -/

theorem handleCellBlur_none (staging : List StagingItem) (items : List LoadingItemData)
    (sr r c : Nat) : handleCellBlur staging items sr r c none = items := rfl

theorem handleCellBlur_noStaging (staging : List StagingItem) (items : List LoadingItemData)
    (sr r c : Nat) (v : Int) (hfind : findStaging staging sr = none) :
    handleCellBlur staging items sr r c (some v) = items := by
  unfold handleCellBlur
  simp only [hfind]

theorem handleCellBlur_reject (staging : List StagingItem) (items : List LoadingItemData)
    (sr r c : Nat) (v : Int) (sItem : StagingItem)
    (hfind : findStaging staging sr = some sItem)
    (hc : 0 < sItem.casesPerPlt ∧ v ≠ sItem.casesPerPlt) :
    handleCellBlur staging items sr r c (some v) =
      handleLoadingCellChange staging items sr r c none := by
  unfold handleCellBlur
  simp only [hfind]
  rw [if_pos hc]

theorem handleCellBlur_accept (staging : List StagingItem) (items : List LoadingItemData)
    (sr r c : Nat) (v : Int) (sItem : StagingItem)
    (hfind : findStaging staging sr = some sItem)
    (hc : ¬(0 < sItem.casesPerPlt ∧ v ≠ sItem.casesPerPlt)) :
    handleCellBlur staging items sr r c (some v) = items := by
  unfold handleCellBlur
  simp only [hfind]
  rw [if_neg hc]

/-! ### The balance invariant through generation and edits -/

theorem balanceInv_generate (staging : List StagingItem)
    (hnd : (staging.map StagingItem.srNo).Nodup) :
    BalanceInv staging (generateLoadingItems staging) := by
  intro li hmem
  unfold generateLoadingItems at hmem
  rcases List.mem_map.mp hmem with ⟨s, hs, rfl⟩
  have hsmem : s ∈ staging := List.mem_of_mem_filter hs
  show (0 : Int) + s.ttlCases = ttlCasesOf staging s.srNo
  unfold ttlCasesOf
  rw [findStaging_nodup staging s hnd hsmem]
  show (0 : Int) + s.ttlCases = s.ttlCases
  omega

theorem balanceInv_safe (staging : List StagingItem) (items : List LoadingItemData)
    (hnd : (staging.map StagingItem.srNo).Nodup) (hinv : BalanceInv staging items) :
    BalanceInv staging (safeLoadingItems staging items) := by
  unfold safeLoadingItems
  split
  · exact balanceInv_generate staging hnd
  · exact hinv

theorem balanceInv_cellChange (staging : List StagingItem) (items : List LoadingItemData)
    (sr r c : Nat) (val : Option Int)
    (hnd : (staging.map StagingItem.srNo).Nodup) (hinv : BalanceInv staging items) :
    BalanceInv staging (handleLoadingCellChange staging items sr r c val) := by
  rw [handleLoadingCellChange_eq]
  intro li' hmem
  rcases List.mem_map.mp hmem with ⟨li, hli, rfl⟩
  by_cases h : (li.skuSrNo == sr) = true
  · rw [if_pos h]
    have hsr : li.skuSrNo = sr := by simpa using h
    dsimp only
    rw [hsr]
    omega
  · rw [if_neg h]
    exact balanceInv_safe staging items hnd hinv li hli

theorem balanceInv_looseChange (staging : List StagingItem) (items : List LoadingItemData)
    (sr : Nat) (val : Option Int)
    (hnd : (staging.map StagingItem.srNo).Nodup) (hinv : BalanceInv staging items) :
    BalanceInv staging (handleLooseChange staging items sr val) := by
  rw [handleLooseChange_eq]
  intro li' hmem
  rcases List.mem_map.mp hmem with ⟨li, hli, rfl⟩
  by_cases h : (li.skuSrNo == sr) = true
  · rw [if_pos h]
    have hsr : li.skuSrNo = sr := by simpa using h
    dsimp only
    rw [hsr]
    omega
  · rw [if_neg h]
    exact balanceInv_safe staging items hnd hinv li hli

theorem balanceInv_blur (staging : List StagingItem) (items : List LoadingItemData)
    (sr r c : Nat) (val : Option Int)
    (hnd : (staging.map StagingItem.srNo).Nodup) (hinv : BalanceInv staging items) :
    BalanceInv staging (handleCellBlur staging items sr r c val) := by
  cases val with
  | none => rw [handleCellBlur_none]; exact hinv
  | some v =>
    cases hfind : findStaging staging sr with
    | none => rw [handleCellBlur_noStaging _ _ _ _ _ _ hfind]; exact hinv
    | some sItem =>
      by_cases hc : 0 < sItem.casesPerPlt ∧ v ≠ sItem.casesPerPlt
      · rw [handleCellBlur_reject _ _ _ _ _ _ _ hfind hc]
        exact balanceInv_cellChange staging items sr r c none hnd hinv
      · rw [handleCellBlur_accept _ _ _ _ _ _ _ hfind hc]
        exact hinv

theorem balanceInv_applyEdit (staging : List StagingItem) (items : List LoadingItemData)
    (e : LoadEdit)
    (hnd : (staging.map StagingItem.srNo).Nodup) (hinv : BalanceInv staging items) :
    BalanceInv staging (applyEdit staging items e) := by
  cases e with
  | cell sr r c v => exact balanceInv_cellChange staging items sr r c v hnd hinv
  | blur sr r c v => exact balanceInv_blur staging items sr r c v hnd hinv
  | loose sr v => exact balanceInv_looseChange staging items sr v hnd hinv

/-! ### Cell-key uniqueness through generation and edits -/

theorem uniqueCellKeys_generate (staging : List StagingItem) :
    UniqueCellKeys (generateLoadingItems staging) := by
  intro li hmem
  unfold generateLoadingItems at hmem
  rcases List.mem_map.mp hmem with ⟨s, hs, rfl⟩
  simp [cellKeys]

theorem uniqueCellKeys_safe (staging : List StagingItem) (items : List LoadingItemData)
    (h : UniqueCellKeys items) : UniqueCellKeys (safeLoadingItems staging items) := by
  unfold safeLoadingItems
  split
  · exact uniqueCellKeys_generate staging
  · exact h

theorem uniqueCellKeys_cellChange (staging : List StagingItem) (items : List LoadingItemData)
    (sr r c : Nat) (val : Option Int) (h : UniqueCellKeys items) :
    UniqueCellKeys (handleLoadingCellChange staging items sr r c val) := by
  rw [handleLoadingCellChange_eq]
  intro li' hmem
  rcases List.mem_map.mp hmem with ⟨li, hli, rfl⟩
  by_cases hb : (li.skuSrNo == sr) = true
  · rw [if_pos hb]
    exact upsertCell_nodup li.cells r c (val.getD 0) (uniqueCellKeys_safe staging items h li hli)
  · rw [if_neg hb]
    exact uniqueCellKeys_safe staging items h li hli

theorem uniqueCellKeys_looseChange (staging : List StagingItem) (items : List LoadingItemData)
    (sr : Nat) (val : Option Int) (h : UniqueCellKeys items) :
    UniqueCellKeys (handleLooseChange staging items sr val) := by
  rw [handleLooseChange_eq]
  intro li' hmem
  rcases List.mem_map.mp hmem with ⟨li, hli, rfl⟩
  by_cases hb : (li.skuSrNo == sr) = true
  · rw [if_pos hb]
    exact uniqueCellKeys_safe staging items h li hli
  · rw [if_neg hb]
    exact uniqueCellKeys_safe staging items h li hli

theorem uniqueCellKeys_blur (staging : List StagingItem) (items : List LoadingItemData)
    (sr r c : Nat) (val : Option Int) (h : UniqueCellKeys items) :
    UniqueCellKeys (handleCellBlur staging items sr r c val) := by
  cases val with
  | none => rw [handleCellBlur_none]; exact h
  | some v =>
    cases hfind : findStaging staging sr with
    | none => rw [handleCellBlur_noStaging _ _ _ _ _ _ hfind]; exact h
    | some sItem =>
      by_cases hc : 0 < sItem.casesPerPlt ∧ v ≠ sItem.casesPerPlt
      · rw [handleCellBlur_reject _ _ _ _ _ _ _ hfind hc]
        exact uniqueCellKeys_cellChange staging items sr r c none h
      · rw [handleCellBlur_accept _ _ _ _ _ _ _ hfind hc]
        exact h

theorem uniqueCellKeys_applyEdit (staging : List StagingItem) (items : List LoadingItemData)
    (e : LoadEdit) (h : UniqueCellKeys items) :
    UniqueCellKeys (applyEdit staging items e) := by
  cases e with
  | cell sr r c v => exact uniqueCellKeys_cellChange staging items sr r c v h
  | blur sr r c v => exact uniqueCellKeys_blur staging items sr r c v h
  | loose sr v => exact uniqueCellKeys_looseChange staging items sr v h

/-! ### What a committed cell displays -/

theorem cellDisplay_cellChange_none (staging : List StagingItem) (items : List LoadingItemData)
    (sr r c : Nat) :
    cellDisplay (handleLoadingCellChange staging items sr r c none) sr r c = 0 := by
  rw [handleLoadingCellChange_eq]
  unfold cellDisplay
  rw [find?_map_ite (safeLoadingItems staging items) sr
    (fun li =>
      { li with
        cells := upsertCell li.cells r c ((none : Option Int).getD 0),
        total := cellSum (upsertCell li.cells r c ((none : Option Int).getD 0)) + li.looseInput,
        balance := ttlCasesOf staging sr -
          (cellSum (upsertCell li.cells r c ((none : Option Int).getD 0)) + li.looseInput) })
    (fun _ => rfl)]
  cases hfind : (safeLoadingItems staging items).find? (fun li => li.skuSrNo == sr) with
  | none => rfl
  | some li =>
    dsimp only [Option.map_some']
    rw [upsertCell_find]
    rfl

/-! ### Claim theorems -/

/-- C1: Balance conservation — starting from any `loadingItems` state satisfying
`total + balance = ttlCases` of the matching staging row (`0` when none
matches), e.g. a freshly generated matrix, every sequence of cell edits
(`handleLoadingCellChange`), blur validations (`handleCellBlur`) and
loose-input edits (`handleLooseChange`) preserves that equation for every
`LoadingItemData`. Staging `srNo`s are assumed unique, as the data model
requires. -/
theorem balance_conservation (staging : List StagingItem) (items : List LoadingItemData)
    (es : List LoadEdit) (hnd : (staging.map StagingItem.srNo).Nodup)
    (hinv : BalanceInv staging items) :
    BalanceInv staging (applyEdits staging items es) := by
  induction es generalizing items with
  | nil => exact hinv
  | cons e rest ih => exact ih _ (balanceInv_applyEdit staging items e hnd hinv)

/-- Witness for C1 at a concrete sheet: one staged SKU `{10, 5, 3} → 53`,
a generated matrix, then a cell edit and a loose edit. -/
theorem balance_conservation_witness :
    BalanceInv
      [{ srNo := 1, skuName := "X", casesPerPlt := 10, fullPlt := 5, loose := 3, ttlCases := 53 }]
      (applyEdits
        [{ srNo := 1, skuName := "X", casesPerPlt := 10, fullPlt := 5, loose := 3, ttlCases := 53 }]
        (generateLoadingItems
          [{ srNo := 1, skuName := "X", casesPerPlt := 10, fullPlt := 5, loose := 3, ttlCases := 53 }])
        [.cell 1 0 0 (some 10), .loose 1 (some 5)]) :=
  balance_conservation _ _ _ (by decide) (by unfold BalanceInv; decide)

/-- C2: Cell contract enforcement — when the staging row owning a grid cell has
`casesPerPlt > 0`, committing (change then blur) any non-blank value different
from `casesPerPlt` leaves that cell displaying blank (the UI renders a value of
`0` as blank), from any starting state, hence regardless of how often it is
attempted. -/
theorem cell_contract_enforcement (staging : List StagingItem) (items : List LoadingItemData)
    (sr r c : Nat) (v : Int) (sItem : StagingItem)
    (hfind : findStaging staging sr = some sItem)
    (hpos : 0 < sItem.casesPerPlt) (hne : v ≠ sItem.casesPerPlt) :
    cellDisplay (commitCell staging items sr r c (some v)) sr r c = 0 := by
  unfold commitCell
  rw [handleCellBlur_reject _ _ _ _ _ _ _ hfind ⟨hpos, hne⟩]
  exact cellDisplay_cellChange_none staging _ sr r c

/-- Witness for C2: `ttlCases = 50`, `casesPerPlt = 10`, entering `7` into cell
`(0, 0)` on blur leaves the cell blank. -/
theorem cell_contract_enforcement_witness :
    cellDisplay
      (commitCell
        [{ srNo := 1, skuName := "X", casesPerPlt := 10, fullPlt := 4, loose := 10, ttlCases := 50 }]
        (generateLoadingItems
          [{ srNo := 1, skuName := "X", casesPerPlt := 10, fullPlt := 4, loose := 10, ttlCases := 50 }])
        1 0 0 (some 7))
      1 0 0 = 0 :=
  cell_contract_enforcement _ _ 1 0 0 7
    { srNo := 1, skuName := "X", casesPerPlt := 10, fullPlt := 4, loose := 10, ttlCases := 50 }
    (by decide) (by decide) (by decide)

/-- Normal form of the strict validator: rules 1 and 2 are reported exactly
when violated; the rule-3 message is appended only when rules 1 and 2 both
pass (it is guarded by `errors.length === 0` in the source). -/
theorem validateForm_strict (d k : String) (items : List RawItem) :
    validateForm d k items true =
      (if strTrim d = "" then ["Destination is required"] else []) ++
      (if strTrim k = "" then ["Loading Dock No is required"] else []) ++
      (if strTrim d ≠ "" ∧ strTrim k ≠ "" ∧ ∀ item ∈ items, strTrim item.skuName = "" then
        ["At least one valid item row (SKU Name) is required to lock."]
      else []) := by
  unfold validateForm
  by_cases hd : strTrim d = "" <;> by_cases hk : strTrim k = "" <;>
    by_cases hi : (items.any fun item => !(strTrim item.skuName == "")) = true <;>
    simp_all [List.any_eq_true]

/-- C3 counterexample: with an empty destination, a present dock number and no
item rows, both rule 1 (destination) and rule 3 (at least one item) are
individually violated, yet `validateForm` in strict mode reports only the
destination violation — the rule-3 message is suppressed because the source
guards it with `errors.length === 0`. -/
theorem lock_validation_cex :
    validateForm "" "dock1" [] true = ["Destination is required"] ∧
    (∀ item ∈ ([] : List RawItem), strTrim item.skuName = "") ∧
    "At least one valid item row (SKU Name) is required to lock." ∉
      validateForm "" "dock1" [] true := by
  refine ⟨by decide, ?_, ?_⟩
  · intro item h
    simp at h
  · intro h
    rw [show validateForm "" "dock1" [] true = ["Destination is required"] by decide] at h
    simp at h

/-- C3 amended: in non-strict mode no rule is checked; in strict mode the
destination and dock rules are each reported exactly when their predicate
fails, the at-least-one-item rule is reported exactly when its predicate fails
AND the other two pass, and no other message is ever returned. -/
theorem lock_validation_amended (d k : String) (items : List RawItem) :
    validateForm d k items false = [] ∧
    ("Destination is required" ∈ validateForm d k items true ↔ strTrim d = "") ∧
    ("Loading Dock No is required" ∈ validateForm d k items true ↔ strTrim k = "") ∧
    ("At least one valid item row (SKU Name) is required to lock." ∈
        validateForm d k items true ↔
      strTrim d ≠ "" ∧ strTrim k ≠ "" ∧ ∀ item ∈ items, strTrim item.skuName = "") ∧
    (∀ msg ∈ validateForm d k items true,
      msg = "Destination is required" ∨ msg = "Loading Dock No is required" ∨
        msg = "At least one valid item row (SKU Name) is required to lock.") := by
  refine ⟨by simp [validateForm], ?_, ?_, ?_, ?_⟩ <;> rw [validateForm_strict] <;>
    by_cases hd : strTrim d = "" <;> by_cases hk : strTrim k = "" <;>
    by_cases hi : ∀ item ∈ items, strTrim item.skuName = "" <;>
    simp_all

/-- C4 counterexample: `handleSubmit` (Complete Loading) is offered on any
non-COMPLETED sheet — its guard holds at DRAFT — and writes COMPLETED without
checking for LOCKED, so a DRAFT sheet completes directly, skipping LOCKED;
the complete operation does not require `status == LOCKED`. -/
theorem lifecycle_cex :
    opGuard .completeSheet .DRAFT = true ∧
    opStatus .completeSheet .DRAFT = .COMPLETED ∧
    runOps .DRAFT [.completeSheet] = .COMPLETED := by
  decide

/-- C4 amended: over any sequence of guarded operations the status never moves
backward in the order DRAFT < LOCKED < COMPLETED; however `complete` requires
only `status ≠ COMPLETED` (not `status = LOCKED`), so DRAFT can jump straight
to COMPLETED. -/
theorem lifecycle_monotone (s : SheetStatus) (ops : List SheetOp) :
    statusRank s ≤ statusRank (runOps s ops) := by
  induction ops generalizing s with
  | nil => exact Nat.le_refl _
  | cons op rest ih =>
    have hstep : ∀ (o : SheetOp) (t : SheetStatus),
        statusRank t ≤ statusRank (if opGuard o t then opStatus o t else t) := by
      intro o t
      cases o <;> cases t <;> decide
    exact Nat.le_trans (hstep op s) (ih _)

/-- C5: Loading-matrix generation from a fresh staging snapshot —
`generateLoadingItems` produces exactly one entry per staging row with
non-empty `skuName` and `ttlCases > 0`, each with `skuSrNo = srNo`, empty
cells, `looseInput = 0`, `total = 0` and `balance = ttlCases`; and the
lock-time generation of `handleSave` with no pre-existing loading items agrees
with it. -/
theorem loading_matrix_generation (staging : List StagingItem) (li : LoadingItemData) :
    (li ∈ generateLoadingItems staging ↔
      ∃ s ∈ staging, s.skuName ≠ "" ∧ 0 < s.ttlCases ∧
        li = { skuSrNo := s.srNo, cells := [], looseInput := 0, total := 0,
               balance := s.ttlCases }) ∧
    regenLoadingItems staging [] = generateLoadingItems staging := by
  constructor
  · constructor
    · intro hmem
      rcases List.mem_map.mp hmem with ⟨s, hs, rfl⟩
      rcases List.mem_filter.mp hs with ⟨hmem2, hpred⟩
      simp only [Bool.and_eq_true, Bool.not_eq_true', beq_eq_false_iff_ne,
        decide_eq_true_eq] at hpred
      exact ⟨s, hmem2, hpred.1, hpred.2, rfl⟩
    · rintro ⟨s, hs, hname, hpos, rfl⟩
      apply List.mem_map_of_mem
      apply List.mem_filter.mpr
      refine ⟨hs, ?_⟩
      simp only [Bool.and_eq_true, Bool.not_eq_true', beq_eq_false_iff_ne,
        decide_eq_true_eq]
      exact ⟨hname, hpos⟩
  · rfl

/-- C6 counterexample: a LOCKED sheet holding accumulated loading progress
(one cell of 10, total 10) but an empty additional-items pool triggers the
defensive re-generation, which rebuilds the entry for `skuSrNo = 1` from
scratch — its cells and total are NOT preserved. -/
theorem regen_preservation_cex :
    (([{ skuSrNo := 1, cells := [{ row := 0, col := 0, value := 10 }], looseInput := 0,
         total := 10, balance := 40 }] : List LoadingItemData).find?
        (fun li => li.skuSrNo == 1) =
      some { skuSrNo := 1, cells := [{ row := 0, col := 0, value := 10 }], looseInput := 0,
             total := 10, balance := 40 }) ∧
    defensiveRegen
        [{ srNo := 1, skuName := "X", casesPerPlt := 10, fullPlt := 4, loose := 10,
           ttlCases := 50 }]
        [{ skuSrNo := 1, cells := [{ row := 0, col := 0, value := 10 }], looseInput := 0,
           total := 10, balance := 40 }]
        [] =
      [{ skuSrNo := 1, cells := [], looseInput := 0, total := 0, balance := 50 }] ∧
    (10 : Int) ≠ 0 := by
  decide

/-- C6 amended: the lock-time re-generation in `handleSave` preserves an
existing entry's `cells`, `looseInput` and `total` and recomputes only
`balance = ttlCases - total`; the `LoadingSheet` defensive re-generation
(`generateLoadingItems`) instead always rebuilds entries fresh (empty cells,
zero loose and total), discarding accumulated progress. -/
theorem regen_preservation (finalItems : List StagingItem) (existing : List LoadingItemData)
    (hnd : (finalItems.map StagingItem.srNo).Nodup) :
    (∀ li ∈ regenLoadingItems finalItems existing, ∀ e,
      existing.find? (fun x => x.skuSrNo == li.skuSrNo) = some e →
      li.cells = e.cells ∧ li.looseInput = e.looseInput ∧ li.total = e.total ∧
        li.balance = ttlCasesOf finalItems li.skuSrNo - e.total) ∧
    (∀ staging : List StagingItem, ∀ li ∈ generateLoadingItems staging,
      li.cells = [] ∧ li.looseInput = 0 ∧ li.total = 0) := by
  constructor
  · intro li hmem e hfind
    unfold regenLoadingItems at hmem
    rcases List.mem_map.mp hmem with ⟨s, hs, heq⟩
    have hsmem : s ∈ finalItems := List.mem_of_mem_filter hs
    cases hfind2 : existing.find? (fun x => x.skuSrNo == s.srNo) with
    | some e2 =>
      simp only [hfind2] at heq
      have hsku : e2.skuSrNo = s.srNo := by
        have := List.find?_some hfind2
        simpa using this
      subst heq
      have hfind3 : existing.find? (fun x => x.skuSrNo == e2.skuSrNo) = some e := hfind
      simp only [hsku] at hfind3
      rw [hfind2] at hfind3
      injection hfind3 with he
      subst he
      refine ⟨rfl, rfl, rfl, ?_⟩
      show s.ttlCases - e2.total = ttlCasesOf finalItems e2.skuSrNo - e2.total
      rw [hsku]
      unfold ttlCasesOf
      rw [findStaging_nodup finalItems s hnd hsmem]
    | none =>
      simp only [hfind2] at heq
      subst heq
      have hfind3 : existing.find? (fun x => x.skuSrNo == s.srNo) = some e := hfind
      rw [hfind2] at hfind3
      cases hfind3
  · intro staging li hmem
    rcases List.mem_map.mp hmem with ⟨s, hs, rfl⟩
    exact ⟨rfl, rfl, rfl⟩

/-- Witness for C6 amended, on a sheet whose existing entry (total 15, one
cell, loose 5, stale balance 40) is preserved by the lock-time re-generation
with only the balance recomputed to 50 - 15. -/
theorem regen_preservation_witness :
    ({ skuSrNo := 1, cells := [{ row := 0, col := 0, value := 10 }], looseInput := 5,
       total := 15, balance := 35 } : LoadingItemData).cells =
      ({ skuSrNo := 1, cells := [{ row := 0, col := 0, value := 10 }], looseInput := 5,
         total := 15, balance := 40 } : LoadingItemData).cells ∧
    ({ skuSrNo := 1, cells := [{ row := 0, col := 0, value := 10 }], looseInput := 5,
       total := 15, balance := 35 } : LoadingItemData).looseInput =
      ({ skuSrNo := 1, cells := [{ row := 0, col := 0, value := 10 }], looseInput := 5,
         total := 15, balance := 40 } : LoadingItemData).looseInput ∧
    ({ skuSrNo := 1, cells := [{ row := 0, col := 0, value := 10 }], looseInput := 5,
       total := 15, balance := 35 } : LoadingItemData).total =
      ({ skuSrNo := 1, cells := [{ row := 0, col := 0, value := 10 }], looseInput := 5,
         total := 15, balance := 40 } : LoadingItemData).total ∧
    ({ skuSrNo := 1, cells := [{ row := 0, col := 0, value := 10 }], looseInput := 5,
       total := 15, balance := 35 } : LoadingItemData).balance =
      ttlCasesOf
        [{ srNo := 1, skuName := "X", casesPerPlt := 10, fullPlt := 4, loose := 10,
           ttlCases := 50 }]
        ({ skuSrNo := 1, cells := [{ row := 0, col := 0, value := 10 }], looseInput := 5,
           total := 15, balance := 35 } : LoadingItemData).skuSrNo -
        ({ skuSrNo := 1, cells := [{ row := 0, col := 0, value := 10 }], looseInput := 5,
           total := 15, balance := 40 } : LoadingItemData).total :=
  (regen_preservation
    [{ srNo := 1, skuName := "X", casesPerPlt := 10, fullPlt := 4, loose := 10, ttlCases := 50 }]
    [{ skuSrNo := 1, cells := [{ row := 0, col := 0, value := 10 }], looseInput := 5,
       total := 15, balance := 40 }]
    (by decide)).1
    { skuSrNo := 1, cells := [{ row := 0, col := 0, value := 10 }], looseInput := 5,
      total := 15, balance := 35 }
    (by decide)
    { skuSrNo := 1, cells := [{ row := 0, col := 0, value := 10 }], looseInput := 5,
      total := 15, balance := 40 }
    (by decide)

/-- C7: Lock validation atomicity — when a lock is attempted and the strict
validator reports any violation, `handleSave` returns the violation list and
the whole application state (sheets and active locks) is unchanged: nothing is
persisted, no status changes. -/
theorem lock_abort_on_validation (st : AppState) (existing : Option Sheet)
    (d k : String) (items : List RawItem) (newId : String)
    (hv : validateForm d k items true ≠ []) :
    handleSave st existing d k items true newId =
      (st, .error (.validation (validateForm d k items true))) := by
  unfold handleSave
  rw [if_pos]
  simp only [Bool.not_eq_true', List.isEmpty_eq_false]
  exact hv

/-- Witness for C7: locking a sheet with an empty destination aborts with the
destination violation and leaves the state untouched. -/
theorem lock_abort_on_validation_witness :
    handleSave { sheets := [], activeLocks := [] } none "" "dock1" [] true "SH-1" =
      ({ sheets := [], activeLocks := [] },
        .error (.validation (validateForm "" "dock1" [] true))) :=
  lock_abort_on_validation { sheets := [], activeLocks := [] } none "" "dock1" [] "SH-1"
    (by decide)

/-- C8: Lock-manager mutual exclusion — `acquireLock` refuses an id already in
the active set and otherwise inserts it; `releaseLock` removes the id
unconditionally; and of two acquisitions of the same id before any release,
the first succeeds and the second fails. -/
theorem lock_manager_exclusion (locks : List String) (sheetId : String) :
    (sheetId ∈ locks → acquireLock locks sheetId = (false, locks)) ∧
    (sheetId ∉ locks → acquireLock locks sheetId = (true, sheetId :: locks)) ∧
    sheetId ∉ releaseLock locks sheetId ∧
    (sheetId ∉ locks →
      (acquireLock locks sheetId).1 = true ∧
      (acquireLock (acquireLock locks sheetId).2 sheetId).1 = false) := by
  refine ⟨?_, ?_, ?_, ?_⟩
  · intro h
    unfold acquireLock
    rw [if_pos h]
  · intro h
    unfold acquireLock
    rw [if_neg h]
  · intro h
    unfold releaseLock at h
    rcases List.mem_filter.mp h with ⟨-, hpred⟩
    simp at hpred
  · intro h
    unfold acquireLock
    rw [if_neg h]
    constructor
    · rfl
    · show (if sheetId ∈ sheetId :: locks then ((false, sheetId :: locks) : Bool × List String)
        else (true, sheetId :: sheetId :: locks)).1 = false
      rw [if_pos (List.mem_cons_self sheetId locks)]

/-- Witness for C8 at a concrete lock set: acquiring `SH-1` twice in a row
starting from an empty set succeeds once and then fails. -/
theorem lock_manager_exclusion_witness :
    (acquireLock [] "SH-1").1 = true ∧
    (acquireLock (acquireLock [] "SH-1").2 "SH-1").1 = false ∧
    "SH-1" ∉ releaseLock ["SH-1", "SH-2"] "SH-1" :=
  ⟨((lock_manager_exclusion [] "SH-1").2.2.2 (by decide)).1,
    ((lock_manager_exclusion [] "SH-1").2.2.2 (by decide)).2,
    (lock_manager_exclusion ["SH-1", "SH-2"] "SH-1").2.2.1⟩

/-- C9: Quantity calculator — `computeTotalCases c f l = c * f + l` (stated for
all integers, hence for all non-negative ones); a blank in any of the three
positions computes exactly as the numeric value `0`; `handleItemChange`
recomputes `ttlCases` by this formula on every edit to any field; and
`handleSave`'s final coercion agrees. -/
theorem quantity_calculator (c f l : Int) (oc og ol : Option Int)
    (item : RawItem) (e : ItemField) :
    computeTotalCases (some c) (some f) (some l) = c * f + l ∧
    computeTotalCases none og ol = computeTotalCases (some 0) og ol ∧
    computeTotalCases oc none ol = computeTotalCases oc (some 0) ol ∧
    computeTotalCases oc og none = computeTotalCases oc og (some 0) ∧
    (handleItemChange item e).ttlCases =
      computeTotalCases (handleItemChange item e).casesPerPlt
        (handleItemChange item e).fullPlt (handleItemChange item e).loose ∧
    (finalizeRaw item).ttlCases =
      computeTotalCases item.casesPerPlt item.fullPlt item.loose := by
  refine ⟨rfl, rfl, rfl, rfl, ?_, rfl⟩
  cases e <;> rfl

/-- C10: Cell upsert uniqueness — starting from a state whose rows hold at most
one cell per `(row, col)` (e.g. a generated matrix), every edit sequence
preserves that; an upsert on an occupied key replaces in place (same length)
rather than appending; keys are never removed; and a blank edit stores the
value `0` at the key instead of deleting the entry. -/
theorem cell_upsert_uniqueness (staging : List StagingItem) (items : List LoadingItemData)
    (es : List LoadEdit) (cells : List LoadingCell) (r c : Nat) (v : Int)
    (huniq : UniqueCellKeys items) :
    UniqueCellKeys (applyEdits staging items es) ∧
    ((r, c) ∈ cellKeys cells → (upsertCell cells r c v).length = cells.length) ∧
    (∀ k ∈ cellKeys cells, k ∈ cellKeys (upsertCell cells r c v)) ∧
    (upsertCell cells r c 0).find? (fun cl => cl.row == r && cl.col == c) =
      some { row := r, col := c, value := 0 } := by
  refine ⟨?_, ?_, ?_, ?_⟩
  · induction es generalizing items with
    | nil => exact huniq
    | cons e rest ih => exact ih _ (uniqueCellKeys_applyEdit staging items e huniq)
  · exact upsertCell_length_of_mem cells r c v
  · exact upsertCell_keys_subset cells r c v
  · exact upsertCell_find cells r c 0

/-- Witness for C10: a generated one-row matrix, a cell edit, a blur rejection
and a repeated edit on the same key; plus the in-place replacement and
key-retention facts at a one-cell list. -/
theorem cell_upsert_uniqueness_witness :
    UniqueCellKeys
      (applyEdits
        [{ srNo := 1, skuName := "X", casesPerPlt := 10, fullPlt := 4, loose := 10, ttlCases := 50 }]
        (generateLoadingItems
          [{ srNo := 1, skuName := "X", casesPerPlt := 10, fullPlt := 4, loose := 10, ttlCases := 50 }])
        [.cell 1 0 0 (some 7), .blur 1 0 0 (some 7), .cell 1 0 0 (some 10)]) ∧
    (upsertCell [{ row := 0, col := 0, value := 10 }] 0 0 7).length =
      ([{ row := 0, col := 0, value := 10 }] : List LoadingCell).length ∧
    (0, 0) ∈ cellKeys (upsertCell [{ row := 0, col := 0, value := 10 }] 0 0 7) ∧
    (upsertCell [{ row := 0, col := 0, value := 10 }] 0 0 0).find?
        (fun cl => cl.row == 0 && cl.col == 0) =
      some { row := 0, col := 0, value := 0 } := by
  have h := cell_upsert_uniqueness
    [{ srNo := 1, skuName := "X", casesPerPlt := 10, fullPlt := 4, loose := 10, ttlCases := 50 }]
    (generateLoadingItems
      [{ srNo := 1, skuName := "X", casesPerPlt := 10, fullPlt := 4, loose := 10, ttlCases := 50 }])
    [.cell 1 0 0 (some 7), .blur 1 0 0 (some 7), .cell 1 0 0 (some 10)]
    [{ row := 0, col := 0, value := 10 }] 0 0 7
    (by unfold UniqueCellKeys; decide)
  exact ⟨h.1, h.2.1 (by decide), h.2.2.1 (0, 0) (by decide),
    (cell_upsert_uniqueness
      [{ srNo := 1, skuName := "X", casesPerPlt := 10, fullPlt := 4, loose := 10, ttlCases := 50 }]
      [] [] [{ row := 0, col := 0, value := 10 }] 0 0 0
      (by unfold UniqueCellKeys; decide)).2.2.2⟩

end Unicharm
